import Mathlib

set_option maxHeartbeats 1000000

/- Shallow embedding of the plugin-plaza CI scripts (src/scripts of the
Class-Widgets/plugin-plaza repository): the pydantic models in models.py and
cw2_models.py, the submission validation and merge logic in
plugin_validation.py and cw2_plugin_validation.py, and the index generator in
generate_plugin_index.py.  Python JSON values are modelled by `PyVal`, Python
dicts by insertion-ordered association lists. -/

/-- Model of a Python/JSON value as it flows through the scripts. -/
inductive PyVal where
  | pstr (s : String)
  | pint (n : Int)
  | pbool (b : Bool)
  | pnone
  | plist (xs : List PyVal)
  | pdict (fields : List (String × PyVal))

/-- Model of a Python dict with string keys: an association list in insertion
order, keys unique in any dict produced by `dictSet` from a unique-key list. -/
abbrev Dict := List (String × PyVal)

/-- Lookup in a Python dict (first matching key). -/
def dictGet : Dict → String → Option PyVal
  | [], _ => none
  | (k, v) :: rest, key => if k = key then some v else dictGet rest key

/-- Python `d[key] = val`: overwrite in place if the key exists (keeping its
position, as CPython dicts do), otherwise append at the end. -/
def dictSet : Dict → String → PyVal → Dict
  | [], key, val => [(key, val)]
  | (k, v) :: rest, key, val =>
    if k = key then (k, val) :: rest else (k, v) :: dictSet rest key val

/-- Python `key in d`. -/
def hasKey (d : Dict) (key : String) : Bool :=
  (dictGet d key).isSome

/-- Python `d.get(key, default)`. -/
def dictGetD (d : Dict) (key : String) (default : PyVal) : PyVal :=
  (dictGet d key).getD default

/- Character classes used by the regexes in models.py / cw2_models.py.
Python's `\w` (and the character-class letters) are modelled over ASCII,
which is the alphabet these patterns are used for. -/

/-- ASCII model of the regex class `\w` = `[A-Za-z0-9_]`. -/
def isWordChar (c : Char) : Bool :=
  (97 ≤ c.toNat && c.toNat ≤ 122) || (65 ≤ c.toNat && c.toNat ≤ 90) ||
    (48 ≤ c.toNat && c.toNat ≤ 57) || c = '_'

/-- The class `[\w.-]` from `GITHUB_URL_RE` in models.py / cw2_models.py. -/
def isUrlSeg (c : Char) : Bool :=
  isWordChar c || c = '.' || c = '-'

/-- The class `[a-z0-9]` from `PLUGIN_ID_RE` in cw2_models.py. -/
def isIdChar (c : Char) : Bool :=
  (97 ≤ c.toNat && c.toNat ≤ 122) || (48 ≤ c.toNat && c.toNat ≤ 57)

/-- The class `[a-z0-9.-]` from `PLUGIN_ID_RE` in cw2_models.py. -/
def isIdMidChar (c : Char) : Bool :=
  isIdChar c || c = '.' || c = '-'

/-- An ASCII uppercase letter (used to state the identifier claims). -/
def isUpperChar (c : Char) : Bool :=
  65 ≤ c.toNat && c.toNat ≤ 90

/-- The character class of `BRANCH_RE`: letters, digits, dot, underscore,
hyphen, slash. -/
def isBranchChar (c : Char) : Bool :=
  isWordChar c || c = '.' || c = '-' || c = '/'

/-- The literal prefix of `GITHUB_URL_RE`. -/
def ghLit : List Char := "https://github.com/".toList

/-- Matcher for the part of `GITHUB_URL_RE` after the literal prefix:
`[\w.-]+/[\w.-]+/?$`.  The character classes exclude the separator `/`, so
the regex is deterministic and equals this greedy scan. -/
def restMatch (rest : List Char) : Bool :=
  !(rest.takeWhile isUrlSeg).isEmpty &&
    match rest.dropWhile isUrlSeg with
    | b :: d2 =>
      decide (b = '/') && !(d2.takeWhile isUrlSeg).isEmpty &&
        ((d2.dropWhile isUrlSeg).isEmpty || decide (d2.dropWhile isUrlSeg = ['/']))
    | [] => false

/-- Matcher for `GITHUB_URL_RE = ^https://github.com/[\w.-]+/[\w.-]+/?$`, as
enforced by `Field(pattern=GITHUB_URL_RE)` on the url fields of PluginJson,
RegistryItem, CW2PluginJson and CW2ManifestItem (anchored, strict end). -/
def githubUrlChars (cs : List Char) : Bool :=
  if ghLit.isPrefixOf cs then restMatch (cs.drop 19) else false

/-- String-level GitHub-URL pattern check. -/
def githubUrlMatch (s : String) : Bool :=
  githubUrlChars s.toList

/-- Matcher for `BRANCH_RE` (one or more characters from the branch class,
anchored on both sides). -/
def branchMatch (s : String) : Bool :=
  !s.toList.isEmpty && s.toList.all isBranchChar

/-- The `validate_url` field validator shared by Submission (models.py) and
CW2PluginJson / CW2Submission (cw2_models.py): the value must start with
`http://` or `https://`; no other constraint. -/
def httpOk (s : String) : Bool :=
  "http://".toList.isPrefixOf s.toList || "https://".toList.isPrefixOf s.toList

/-- Python whitespace class used by the regex shorthand in the section
patterns, over ASCII. -/
def isPySpace (c : Char) : Bool :=
  c = ' ' || c = '\t' || c = '\n' || c = '\r' || c = '\x0b' || c = '\x0c'

/-- Model of Python str.strip over ASCII whitespace. -/
def pyStrip (s : String) : String :=
  String.mk (((s.toList.dropWhile isPySpace).reverse.dropWhile isPySpace).reverse)

/-- Model of Python str.split on a comma. -/
def splitComma (s : String) : List String :=
  go s.toList []
where
  go : List Char → List Char → List String
    | [], acc => [String.mk acc.reverse]
    | c :: rest, acc =>
      if c = ',' then String.mk acc.reverse :: go rest [] else go rest (c :: acc)


/-- Tail part of `PLUGIN_ID_RE`: `[a-z0-9.-]*[a-z0-9]` — zero or more middle
chars followed by one final `[a-z0-9]`. -/
def midLast : List Char → Bool
  | [] => false
  | [c] => isIdChar c
  | c :: rest => isIdMidChar c && midLast rest

/-- Core matcher for `PLUGIN_ID_RE = ^[a-z0-9][a-z0-9.-]*[a-z0-9]$` against a
whole character list.  Backtracking makes the regex equivalent to: first char
in `[a-z0-9]`, middle chars in `[a-z0-9.-]`, last char in `[a-z0-9]` (so at
least two characters). -/
def pluginIdCore : List Char → Bool
  | [] => false
  | c :: rest => isIdChar c && midLast rest

/-- Model of Python `re.match(PLUGIN_ID_RE, v)` being truthy: `$` in Python
also matches just before a single trailing newline. -/
def pyMatchPluginId (s : String) : Bool :=
  pluginIdCore s.toList ||
    (match s.toList.getLast? with
     | some c => c = '\n' && pluginIdCore s.toList.dropLast
     | none => false)

/-- The `validate_plugin_id` field validator of CW2PluginJson, CW2ManifestItem
and CW2Submission (cw2_models.py): succeeds iff the id matches PLUGIN_ID_RE. -/
def validatePluginId (s : String) : Bool :=
  pyMatchPluginId s

/- Pydantic-style field validation.  `Submission(**data)` and the other model
constructions collect one structured error per violated constraint, in field
declaration order; `validate_submission_metadata` then formats each structured
error `(loc, msg)` as the string `loc ++ ": " ++ msg`.  Errors are modelled as
`(path, message)` pairs. -/

/-- Structured validation error: dotted location path and message. -/
abbrev FieldErr := String × String

/-- Validation block for a required `str` field. -/
def reqStrField (d : Dict) (f : String) : List FieldErr :=
  match dictGet d f with
  | none => [(f, "Field required")]
  | some (.pstr _) => []
  | some _ => [(f, "Input should be a valid string")]

/-- Validation block for the required union field `plugin_ver : int | str`:
a value in neither branch yields one error per union branch, as pydantic
reports for smart unions. -/
def intOrStrField (d : Dict) (f : String) : List FieldErr :=
  match dictGet d f with
  | none => [(f, "Field required")]
  | some (.pint _) => []
  | some (.pstr _) => []
  | some _ =>
    [(f ++ ".int", "Input should be a valid integer"),
     (f ++ ".str", "Input should be a valid string")]

/-- Validation block for an optional `str | None` field with a default. -/
def optStrField (d : Dict) (f : String) : List FieldErr :=
  match dictGet d f with
  | none => []
  | some (.pstr _) => []
  | some .pnone => []
  | some _ => [(f, "Input should be a valid string")]

/-- Validation block for the v1 `Submission.url` field: required `str`, then
the `validate_url` prefix check. -/
def urlFieldV1 (d : Dict) : List FieldErr :=
  match dictGet d "url" with
  | none => [("url", "Field required")]
  | some (.pstr s) =>
    if httpOk s then [] else [("url", "Value error, URL必须以http://或https://开头")]
  | some _ => [("url", "Input should be a valid string")]

/-- Validation block for a required `str` field carrying the CW2
`validate_plugin_id` validator. -/
def idField (d : Dict) (f : String) : List FieldErr :=
  match dictGet d f with
  | none => [(f, "Field required")]
  | some (.pstr s) =>
    if validatePluginId s then []
    else [(f, "Value error, 插件ID只能包含小写字母、数字、点和连字符，且不能以点或连字符开头/结尾")]
  | some _ => [(f, "Input should be a valid string")]

/-- Error message of a `Field(pattern=GITHUB_URL_RE)` mismatch. -/
def githubPatternMsg : String :=
  "String should match pattern ^https://github.com/ owner / repo with optional trailing slash"

/-- Error message of a `Field(pattern=BRANCH_RE)` mismatch. -/
def branchPatternMsg : String :=
  "String should match pattern: one or more of letters, digits, dot, underscore, hyphen, slash"

/-- Field-order validation of `Submission(**data)` from models.py: fields
id, name, version, plugin_ver, author, url, branch, tag, description. -/
def subErrorsV1 (d : Dict) : List FieldErr :=
  reqStrField d "id" ++ reqStrField d "name" ++ reqStrField d "version" ++
    intOrStrField d "plugin_ver" ++ reqStrField d "author" ++ urlFieldV1 d ++
    reqStrField d "branch" ++ reqStrField d "tag" ++ optStrField d "description"

/-- String value of a dict entry, defined when validation has succeeded. -/
def getStr (d : Dict) (f : String) : String :=
  match dictGet d f with
  | some (.pstr s) => s
  | _ => ""

/-- Optional-string value of a dict entry (absent or None become none). -/
def getOptStr (d : Dict) (f : String) : Option String :=
  match dictGet d f with
  | some (.pstr s) => some s
  | _ => none

/-- The v1 Submission record as built by `Submission(**data)` on success. -/
structure SubmissionV1 where
  id : String
  name : String
  version : String
  plugin_ver : PyVal
  author : String
  url : String
  branch : String
  tag : String
  description : Option String

/-- Build the v1 Submission from an error-free dict. -/
def buildSubV1 (d : Dict) : SubmissionV1 :=
  { id := getStr d "id", name := getStr d "name", version := getStr d "version",
    plugin_ver := (dictGet d "plugin_ver").getD .pnone, author := getStr d "author",
    url := getStr d "url", branch := getStr d "branch", tag := getStr d "tag",
    description := getOptStr d "description" }

/-- The v1 RegistryItem record (models.py): note that it has no id field, and
`RegistryItem(id=..., ...)` ignores the extra keyword. -/
structure RegistryItemV1 where
  name : String
  version : String
  plugin_ver : PyVal
  author : String
  url : String
  branch : String
  tag : String
  description : Option String
  update_date : Option String

/-- Errors of the `RegistryItem(...)` construction in
`validate_submission_metadata` (models.py field order puts url before branch;
the only constraints violable by an already well-typed Submission are the two
Field patterns). -/
def itemErrorsV1 (sub : SubmissionV1) : List FieldErr :=
  (if githubUrlMatch sub.url then [] else [("url", githubPatternMsg)]) ++
    (if branchMatch sub.branch then [] else [("branch", branchPatternMsg)])

/-- Format structured errors the way `validate_submission_metadata` does. -/
def fmtErrs (errs : List FieldErr) : List String :=
  errs.map (fun e => e.1 ++ ": " ++ e.2)

/-- Model of `validate_submission_metadata` from plugin_validation.py:
validate `Submission(**data)`; on success construct the RegistryItem; return
(success, formatted errors, item). -/
def validateSubmissionMetadataV1 (d : Dict) :
    Bool × List String × Option RegistryItemV1 :=
  match subErrorsV1 d with
  | [] =>
    let sub := buildSubV1 d
    match itemErrorsV1 sub with
    | [] =>
      (true, [],
        some { name := sub.name, version := sub.version, plugin_ver := sub.plugin_ver,
               author := sub.author, url := sub.url, branch := sub.branch,
               tag := sub.tag, description := sub.description, update_date := none })
    | errs => (false, fmtErrs errs, none)
  | errs => (false, fmtErrs errs, none)

/- The Class Widgets 2 pipeline (cw2_models.py / cw2_plugin_validation.py). -/

/-- Field-order validation of `CW2Submission(**data)`: fields id, name,
version, api_version, description, author, url, branch, tags, readme, icon. -/
def subErrorsCW2 (d : Dict) : List FieldErr :=
  idField d "id" ++ reqStrField d "name" ++ reqStrField d "version" ++
    reqStrField d "api_version" ++ reqStrField d "description" ++
    reqStrField d "author" ++ urlFieldV1 d ++ reqStrField d "branch" ++
    reqStrField d "tags" ++ optReadmeField d ++ optStrField d "icon"
where
  /-- readme has default "README.md": absent is fine, present must be str. -/
  optReadmeField (d : Dict) : List FieldErr :=
    match dictGet d "readme" with
    | none => []
    | some (.pstr _) => []
    | some _ => [("readme", "Input should be a valid string")]

/-- The CW2Submission record as built on success. -/
structure CW2Submission where
  id : String
  name : String
  version : String
  api_version : String
  description : String
  author : String
  url : String
  branch : String
  tags : String
  readme : String
  icon : Option String

/-- Build the CW2Submission from an error-free dict (readme defaults). -/
def buildSubCW2 (d : Dict) : CW2Submission :=
  { id := getStr d "id", name := getStr d "name", version := getStr d "version",
    api_version := getStr d "api_version", description := getStr d "description",
    author := getStr d "author", url := getStr d "url", branch := getStr d "branch",
    tags := getStr d "tags",
    readme := match dictGet d "readme" with
              | some (.pstr s) => s
              | _ => "README.md",
    icon := getOptStr d "icon" }

/-- The CW2ManifestItem record (cw2_models.py). -/
structure CW2ManifestItem where
  id : String
  name : String
  version : String
  api_version : String
  description : String
  author : String
  url : String
  branch : String
  readme : String
  icon : Option String
  tags : Option (List String)

/-- The comma-split of the tags string performed in
`validate_submission_metadata` (cw2_plugin_validation.py): None when the tags
string is falsy, otherwise the trimmed non-empty parts. -/
def splitTags (tags : String) : Option (List String) :=
  if tags = "" then none
  else some (((splitComma tags).map pyStrip).filter (fun t => t ≠ ""))

/-- Errors of the `CW2ManifestItem(...)` construction (field order id, ...,
url, branch, ...; the violable constraints on a well-typed CW2Submission are
the id validator and the two Field patterns). -/
def itemErrorsCW2 (sub : CW2Submission) : List FieldErr :=
  (if validatePluginId sub.id then []
   else [("id", "Value error, 插件ID只能包含小写字母、数字、点和连字符，且不能以点或连字符开头/结尾")]) ++
    (if githubUrlMatch sub.url then [] else [("url", githubPatternMsg)]) ++
    (if branchMatch sub.branch then [] else [("branch", branchPatternMsg)])

/-- Model of `validate_submission_metadata` from cw2_plugin_validation.py. -/
def validateSubmissionMetadataCW2 (d : Dict) :
    Bool × List String × Option CW2ManifestItem :=
  match subErrorsCW2 d with
  | [] =>
    let sub := buildSubCW2 d
    match itemErrorsCW2 sub with
    | [] =>
      (true, [],
        some { id := sub.id, name := sub.name, version := sub.version,
               api_version := sub.api_version, description := sub.description,
               author := sub.author, url := sub.url, branch := sub.branch,
               readme := sub.readme, icon := sub.icon, tags := splitTags sub.tags })
    | errs => (false, fmtErrs errs, none)
  | errs => (false, fmtErrs errs, none)

/- Issue-form extraction and the merged dicts built by validate_submission
(plugin_validation.py lines 156-162, cw2_plugin_validation.py lines 136-148). -/

/-- Form data extracted from an issue body (both pipelines extract the same
four fields; branch defaults to "main"). -/
structure FormData where
  url : String
  id : String
  tag : String
  branch : String
deriving DecidableEq

/-- Model of `re.search(header + whitespace-newline-whitespace + rest-of-line,
issue_body)`: scan for the leftmost occurrence of the literal header that is
followed by a whitespace run containing a newline and then a non-whitespace
character; capture that rest of line.  (The degenerate Python match in which
the captured group itself is trailing whitespace is not modelled; it strips to
the empty string and does not occur on well-formed issue bodies.) -/
def sectionValue (hdr : List Char) : List Char → Option (List Char)
  | [] => none
  | c :: rest =>
    if hdr.isPrefixOf (c :: rest) then
      let after := (c :: rest).drop hdr.length
      let w := after.takeWhile isPySpace
      let r := after.dropWhile isPySpace
      if w.contains '\n' && !r.isEmpty then some (r.takeWhile (fun ch => ch ≠ '\n'))
      else sectionValue hdr rest
    else sectionValue hdr rest

/-- One extracted-and-stripped section of the issue body. -/
def sectionStr (hdr : String) (body : String) : Option String :=
  (sectionValue hdr.toList body.toList).map (fun cs => pyStrip (String.mk cs))

/-- Model of `extract_form_data_from_issue` (identical in both pipelines):
url, id and tag sections are required; the branch section defaults to
"main". -/
def extractFormDataFromIssue (body : String) : Option FormData :=
  match sectionStr "### 插件仓库 URL" body, sectionStr "### 插件 ID" body,
      sectionStr "### 插件标签" body with
  | some u, some i, some t =>
    some { url := u, id := i, tag := t,
           branch := (sectionStr "### 插件分支" body).getD "main" }
  | _, _, _ => none

/-- The merged dict built by the v1 `validate_submission`
(plugin_validation.py lines 156-162): the literal entries id, tag, url,
branch come first, then `**plugin_json` overwrites every key the manifest
declares. -/
def mergedDataV1 (form : FormData) (pluginJson : Dict) : Dict :=
  pluginJson.foldl (fun d kv => dictSet d kv.1 kv.2)
    [("id", .pstr form.id), ("tag", .pstr form.tag), ("url", .pstr form.url),
     ("branch", dictGetD pluginJson "branch" (.pstr "main"))]

/-- The merged dict built by the CW2 `validate_submission`
(cw2_plugin_validation.py lines 136-148): id, url, branch, tags from the
form; the remaining fields from the fetched manifest with defaults. -/
def mergedDataCW2 (form : FormData) (m : Dict) : Dict :=
  [("id", .pstr form.id),
   ("name", dictGetD m "name" (.pstr "")),
   ("version", dictGetD m "version" (.pstr "")),
   ("api_version", dictGetD m "api_version" (.pstr "")),
   ("description", dictGetD m "description" (.pstr "")),
   ("author", dictGetD m "author" (.pstr "")),
   ("url", .pstr form.url),
   ("branch", .pstr form.branch),
   ("tags", .pstr form.tag),
   ("readme", dictGetD m "readme" (.pstr "README.md")),
   ("icon", dictGetD m "icon" .pnone)]

/- Registry merge (handle_toggle, plugin_validation.py lines 253-261). -/

/-- Model of loading `Plugins/plugin_list.json` in handle_toggle: a missing
file is treated as the empty mapping. -/
def loadRegistry (file : Option Dict) : Dict :=
  file.getD []

/-- Model of `plugin_list[plugin_id] = registry_item_data`. -/
def mergeRegistry (reg : Dict) (k : String) (v : PyVal) : Dict :=
  dictSet reg k v

/- Registry-level validation (models.py Registry.validate_items and
cw2_models.py CW2ManifestRegistry.validate_items). -/

/-- Field-order validation of `RegistryItemWithId.model_validate(temp_data)`:
RegistryItem fields name, version, plugin_ver, author, url (github pattern),
branch (branch pattern), tag, description, update_date, then the subclass
field id. -/
def registryItemWithIdErrors (d : Dict) : List FieldErr :=
  reqStrField d "name" ++ reqStrField d "version" ++ intOrStrField d "plugin_ver" ++
    reqStrField d "author" ++ urlPatternField d ++ branchPatternField d ++
    reqStrField d "tag" ++ optStrField d "description" ++ optStrField d "update_date" ++
    reqStrField d "id"
where
  /-- url: required str matching GITHUB_URL_RE. -/
  urlPatternField (d : Dict) : List FieldErr :=
    match dictGet d "url" with
    | none => [("url", "Field required")]
    | some (.pstr s) => if githubUrlMatch s then [] else [("url", githubPatternMsg)]
    | some _ => [("url", "Input should be a valid string")]
  /-- branch: required str matching BRANCH_RE. -/
  branchPatternField (d : Dict) : List FieldErr :=
    match dictGet d "branch" with
    | none => [("branch", "Field required")]
    | some (.pstr s) => if branchMatch s then [] else [("branch", branchPatternMsg)]
    | some _ => [("branch", "Input should be a valid string")]

/-- Errors of validating one registry entry dict `d` under key `k`: the code
copies the entry, injects the key as id, and validates RegistryItemWithId. -/
def entryErrors (k : String) (d : Dict) : List FieldErr :=
  registryItemWithIdErrors (dictSet d "id" (.pstr k))

/-- Model of `Registry.validate_items` (models.py lines 68-83): iterate the
mapping in order; a dict-shaped value is validated with the key injected as
id on a copy — `model_validate` raises on the first invalid entry, aborting
the loop — and the original value is stored; non-dict values pass through. -/
def validateItems : Dict → Except (List FieldErr) Dict
  | [] => .ok []
  | (k, v) :: rest =>
    match v with
    | .pdict d =>
      if entryErrors k d = [] then (validateItems rest).map (fun r => (k, v) :: r)
      else .error (entryErrors k d)
    | _ => (validateItems rest).map (fun r => (k, v) :: r)

/- Index generation (generate_plugin_index.py). -/

/-- Structural equality of Python values, used where the Python code keys
sets and dict histograms by values. -/
def PyVal.beq : PyVal → PyVal → Bool
  | .pstr a, .pstr b => a == b
  | .pint a, .pint b => a == b
  | .pbool a, .pbool b => a == b
  | .pnone, .pnone => true
  | .plist [], .plist [] => true
  | .plist (x :: xs), .plist (y :: ys) =>
    PyVal.beq x y && PyVal.beq (.plist xs) (.plist ys)
  | .pdict [], .pdict [] => true
  | .pdict ((k, x) :: xs), .pdict ((j, y) :: ys) =>
    k == j && PyVal.beq x y && PyVal.beq (.pdict xs) (.pdict ys)
  | _, _ => false

/-- A manifest file presented to the generator: its (directory-relative)
path, its JSON-decoded object content (or the decode error message), and the
stat metadata the generator annotates with. -/
structure MFile where
  path : String
  content : Except String Dict
  size : Nat
  mtime : String

/-- The required fields checked by `parse_plugin_manifest`. -/
def requiredFields : List String := ["id", "name", "version"]

/-- One file-level error entry (file path, message). -/
abbrev ErrEntry := String × String

/-- Model of `parse_plugin_manifest`: undecodable JSON or missing required
fields yield no plugin and one recorded error; otherwise the data is
annotated with the private file fields.  (Manifest files whose JSON decodes
to a non-object are not modelled; the claims quantify over object
manifests.) -/
def parsePluginManifest (f : MFile) : Option Dict × List ErrEntry :=
  match f.content with
  | .error e => (none, [(f.path, "Invalid JSON: " ++ e)])
  | .ok data =>
    let missing := requiredFields.filter (fun fld => !hasKey data fld)
    if missing.isEmpty then
      (some (dictSet (dictSet (dictSet data "_file_path" (.pstr f.path))
        "_file_size" (.pint f.size)) "_modified_time" (.pstr f.mtime)), [])
    else (none, [(f.path, "Missing required fields: " ++ String.intercalate ", " missing)])

/-- The plugins accumulated by the scan loop of `generate_index`, in file
order, before sorting. -/
def pluginsRaw (files : List MFile) : List Dict :=
  files.filterMap (fun f => (parsePluginManifest f).1)

/-- The errors accumulated by the scan loop, in file order. -/
def errorsRaw (files : List MFile) : List ErrEntry :=
  (files.map (fun f => (parsePluginManifest f).2)).flatten

/-- Sort key `x.get("id", "")` used by `generate_index`; non-string ids are
outside the modelled input space of the string sort. -/
def strKey : PyVal → String
  | .pstr s => s
  | _ => ""

/-- Stable insertion of an element into a sorted list: the new element goes
before the first element it is le-related to, so equal elements keep their
original relative order (Python sorts are stable). -/
def insertBy (le : Dict → Dict → Bool) (x : Dict) : List Dict → List Dict
  | [] => [x]
  | y :: ys => if le x y then x :: y :: ys else y :: insertBy le x ys

/-- Structural stable sort (insertion sort), modelling Python list.sort /
sorted. -/
def sortBy (le : Dict → Dict → Bool) : List Dict → List Dict
  | [] => []
  | x :: xs => insertBy le x (sortBy le xs)

/-- String-list variant of the stable insertion sort. -/
def insertByS (le : String → String → Bool) (x : String) : List String → List String
  | [] => [x]
  | y :: ys => if le x y then x :: y :: ys else y :: insertByS le x ys

/-- String-list variant of the stable sort. -/
def sortByS (le : String → String → Bool) : List String → List String
  | [] => []
  | x :: xs => insertByS le x (sortByS le xs)

/-- Histogram-entry variant of the stable insertion sort. -/
def insertByH (le : PyVal × Nat → PyVal × Nat → Bool) (x : PyVal × Nat) :
    List (PyVal × Nat) → List (PyVal × Nat)
  | [] => [x]
  | y :: ys => if le x y then x :: y :: ys else y :: insertByH le x ys

/-- Histogram-entry variant of the stable sort. -/
def sortByH (le : PyVal × Nat → PyVal × Nat → Bool) : List (PyVal × Nat) → List (PyVal × Nat)
  | [] => []
  | x :: xs => insertByH le x (sortByH le xs)

/-- The id sort of `generate_index` (Python list.sort is stable; so is the
insertion sort used here). -/
def sortPlugins (ps : List Dict) : List Dict :=
  sortBy (fun a b =>
    decide (strKey (dictGetD a "id" (.pstr "")) ≤ strKey (dictGetD b "id" (.pstr "")))) ps

/-- Histogram bump: Python `dist[k] = dist.get(k, 0) + 1` keeps first-seen
key order. -/
def bump (l : List (PyVal × Nat)) (k : PyVal) : List (PyVal × Nat) :=
  match l with
  | [] => [(k, 1)]
  | (j, n) :: rest => if PyVal.beq j k then (j, n + 1) :: rest else (j, n) :: bump rest k

/-- First-seen-order deduplication (Python set membership, modelled
deterministically; the set is sorted immediately after). -/
def dedupFirst : List String → List String
  | [] => []
  | s :: rest => s :: (dedupFirst rest).filter (fun t => t ≠ s)

/-- The tag list iterated by the statistics loop: `plugin.get("tags", [])`.
Non-list tags values (over which Python would iterate characters or raise)
are not modelled. -/
def tagsOf (p : Dict) : List PyVal :=
  match dictGet p "tags" with
  | some (.plist xs) => xs
  | _ => []

/-- The statistics document of `generate_statistics`. -/
structure Statistics where
  total_plugins : Nat
  total_errors : Nat
  unique_authors : List String
  version_distribution : List (PyVal × Nat)
  tag_distribution : List (PyVal × Nat)

/-- Model of `generate_statistics`.  Authors and versions are sorted by their
string payload (the Python sorts are only defined on homogeneous string
data); the tag histogram is sorted by descending count, ties kept in
first-seen order (Python sorted is stable). -/
def generateStatistics (plugins : List Dict) (errors : List ErrEntry) : Statistics :=
  if plugins.isEmpty then
    { total_plugins := 0, total_errors := errors.length, unique_authors := [],
      version_distribution := [], tag_distribution := [] }
  else
    { total_plugins := plugins.length,
      total_errors := errors.length,
      unique_authors :=
        sortByS (fun a b => decide (a ≤ b))
          (dedupFirst (plugins.map (fun p => strKey (dictGetD p "author" (.pstr "Unknown"))))),
      version_distribution :=
        sortByH (fun a b => decide (strKey a.1 ≤ strKey b.1))
          (plugins.foldl (fun dist p => bump dist (dictGetD p "version" (.pstr "unknown"))) []),
      tag_distribution :=
        sortByH (fun a b => decide (b.2 ≤ a.2))
          (plugins.foldl (fun dist p => (tagsOf p).foldl bump dist) []) }

/-- The index document of `generate_index` (the `metadata.generated_at`
timestamp is passed in as `now`). -/
structure IndexDoc where
  generated_at : String
  manifest_directory : String
  total_files_scanned : Nat
  generator_version : String
  statistics : Statistics
  plugins : List Dict
  errors : List ErrEntry

/-- Model of `generate_index`: scan the files in order, collect plugins and
errors, sort the plugins by id, build statistics and the index document. -/
def generateIndex (now : String) (dir : String) (files : List MFile) : IndexDoc :=
  let plugins := sortPlugins (pluginsRaw files)
  let errors := errorsRaw files
  { generated_at := now, manifest_directory := dir,
    total_files_scanned := files.length, generator_version := "1.0.0",
    statistics := generateStatistics plugins errors,
    plugins := plugins, errors := errors }

/- Specification-level shapes used to state the URL and identifier claims. -/

/-- A character list of the shape https followed by github.com and
owner/repo with an optional trailing slash, where owner and repo are
non-empty runs of characters from the url-segment class: the structural
reading of the GitHub URL pattern in the spec. -/
def GitHubUrlForm (cs : List Char) : Prop :=
  ∃ ow re t, ow ≠ [] ∧ re ≠ [] ∧ (∀ c ∈ ow, isUrlSeg c = true) ∧
    (∀ c ∈ re, isUrlSeg c = true) ∧ (t = [] ∨ t = ['/']) ∧
    cs = ghLit ++ (ow ++ '/' :: (re ++ t))

/-- A character list of the shape first-char, middle run, last-char with the
classes of PLUGIN_ID_RE: the structural reading of the identifier pattern in
the spec. -/
def PluginIdForm (cs : List Char) : Prop :=
  ∃ f mid l, isIdChar f = true ∧ (∀ c ∈ mid, isIdMidChar c = true) ∧
    isIdChar l = true ∧ cs = f :: (mid ++ [l])

/-- The required (no-default) fields of the v1 Submission model. -/
def v1RequiredFields : List String :=
  ["id", "name", "version", "plugin_ver", "author", "url", "branch", "tag"]

/-- The required (no-default) fields of the CW2Submission model. -/
def cw2RequiredFields : List String :=
  ["id", "name", "version", "api_version", "description", "author", "url", "branch", "tags"]

/-- Count of structured errors whose field path is exactly the given field. -/
def errCountFor (f : String) (errs : List FieldErr) : Nat :=
  errs.countP (fun e => e.1 == f)

/- Dictionary lemmas. -/

theorem dictGet_dictSet_self (d : Dict) (k : String) (v : PyVal) :
    dictGet (dictSet d k v) k = some v := by
  induction d with
  | nil => simp [dictSet, dictGet]
  | cons kv rest ih =>
    obtain ⟨k0, v0⟩ := kv
    by_cases h : k0 = k <;> simp [dictSet, dictGet, h, ih]

theorem dictGet_dictSet_ne (d : Dict) (k j : String) (v : PyVal) (h : j ≠ k) :
    dictGet (dictSet d k v) j = dictGet d j := by
  have hkj : ¬k = j := fun hh => h hh.symm
  induction d with
  | nil => simp [dictSet, dictGet, hkj]
  | cons kv rest ih =>
    obtain ⟨k0, v0⟩ := kv
    by_cases h0 : k0 = k
    · subst h0
      simp [dictSet, dictGet, hkj]
    · by_cases hj : k0 = j
      · subst hj
        simp [dictSet, dictGet, h0]
      · simp [dictSet, dictGet, h0, hj, ih]

theorem dictSet_dictSet_self (d : Dict) (k : String) (v : PyVal) :
    dictSet (dictSet d k v) k v = dictSet d k v := by
  induction d with
  | nil => simp [dictSet]
  | cons kv rest ih =>
    obtain ⟨k0, v0⟩ := kv
    by_cases h : k0 = k <;> simp [dictSet, h, ih]

theorem dictGet_eq_none_iff (d : Dict) (k : String) :
    dictGet d k = none ↔ k ∉ d.map Prod.fst := by
  induction d with
  | nil => simp [dictGet]
  | cons kv rest ih =>
    obtain ⟨k0, v0⟩ := kv
    by_cases h : k0 = k
    · subst h
      simp [dictGet]
    · simp [dictGet, h, ih, Ne.symm h]

theorem dictGet_foldl_dictSet (m : Dict) (b : Dict) (k : String)
    (hm : (m.map Prod.fst).Nodup) :
    dictGet (m.foldl (fun d kv => dictSet d kv.1 kv.2) b) k =
      (dictGet m k).or (dictGet b k) := by
  induction m generalizing b with
  | nil => simp [dictGet, Option.or]
  | cons kv rest ih =>
    obtain ⟨k0, v0⟩ := kv
    rw [List.map_cons] at hm
    have h1 : k0 ∉ rest.map Prod.fst := (List.nodup_cons.mp hm).1
    have h2 : (rest.map Prod.fst).Nodup := (List.nodup_cons.mp hm).2
    by_cases h : k0 = k
    · subst h
      have hnone : dictGet rest k0 = none := (dictGet_eq_none_iff rest k0).mpr h1
      simp [List.foldl_cons, ih _ h2, dictGet, hnone, dictGet_dictSet_self, Option.or]
    · simp [List.foldl_cons, ih _ h2, dictGet, h,
        dictGet_dictSet_ne b k0 k v0 (fun hh => h hh.symm)]

/-- C2: merging a validated entry under a key into the registry (a missing
registry file being the empty mapping, as in handle_toggle) makes the key map
to exactly the supplied value, leaves every other key at its previous value,
and is idempotent: merging the same key-value pair twice equals merging it
once. -/
theorem c2_registry_merge (file : Option Dict) (k : String) (v : PyVal) :
    dictGet (mergeRegistry (loadRegistry file) k v) k = some v ∧
      (∀ j, j ≠ k →
        dictGet (mergeRegistry (loadRegistry file) k v) j = dictGet (loadRegistry file) j) ∧
      mergeRegistry (mergeRegistry (loadRegistry file) k v) k v =
        mergeRegistry (loadRegistry file) k v := by
  refine ⟨dictGet_dictSet_self _ _ _, fun j hj => dictGet_dictSet_ne _ _ _ _ hj, ?_⟩
  exact dictSet_dictSet_self _ _ _

/-- Witness for c2_registry_merge at a concrete registry, key and value. -/
theorem c2_registry_merge_witness :
    dictGet (mergeRegistry (loadRegistry (some [("old", PyVal.pstr "o")])) "new" (PyVal.pstr "n"))
        "new" = some (PyVal.pstr "n") ∧
      dictGet (mergeRegistry (loadRegistry (some [("old", PyVal.pstr "o")])) "new" (PyVal.pstr "n"))
        "old" = dictGet (loadRegistry (some [("old", PyVal.pstr "o")])) "old" :=
  ⟨(c2_registry_merge (some [("old", PyVal.pstr "o")]) "new" (PyVal.pstr "n")).1,
    (c2_registry_merge (some [("old", PyVal.pstr "o")]) "new" (PyVal.pstr "n")).2.1 "old"
      (by decide)⟩

/- Lemmas about registry-level validation. -/

theorem validateItems_cons_nondict (k0 : String) (v0 : PyVal) (rest : Dict)
    (hv : ∀ d, v0 ≠ PyVal.pdict d) :
    validateItems ((k0, v0) :: rest) =
      (validateItems rest).map (fun r => (k0, v0) :: r) := by
  cases v0 <;> try rfl
  exact absurd rfl (hv _)

theorem validateItems_cons_dict_ok (k0 : String) (d0 : Dict) (rest : Dict)
    (h : entryErrors k0 d0 = []) :
    validateItems ((k0, PyVal.pdict d0) :: rest) =
      (validateItems rest).map (fun r => (k0, PyVal.pdict d0) :: r) := by
  conv_lhs => rw [validateItems]
  rw [if_pos h]

theorem validateItems_cons_dict_err (k0 : String) (d0 : Dict) (rest : Dict)
    (e : FieldErr) (es : List FieldErr) (h : entryErrors k0 d0 = e :: es) :
    validateItems ((k0, PyVal.pdict d0) :: rest) = .error (e :: es) := by
  conv_lhs => rw [validateItems]
  rw [if_neg (by simp [h]), h]

theorem validateItems_ok_eq :
    ∀ {data out : Dict}, validateItems data = .ok out → out = data := by
  intro data
  induction data with
  | nil =>
    intro out h
    simpa [validateItems] using h.symm
  | cons kv rest ih =>
    intro out h
    obtain ⟨k0, v0⟩ := kv
    by_cases hd : ∃ d0, v0 = PyVal.pdict d0
    · obtain ⟨d0, rfl⟩ := hd
      cases h0 : entryErrors k0 d0 with
      | nil =>
        rw [validateItems_cons_dict_ok k0 d0 rest h0] at h
        cases hrest : validateItems rest with
        | ok r =>
          rw [hrest] at h
          simp only [Except.map] at h
          cases h
          rw [ih hrest]
        | error errs =>
          rw [hrest] at h
          simp [Except.map] at h
      | cons e es =>
        rw [validateItems_cons_dict_err k0 d0 rest e es h0] at h
        simp at h
    · rw [validateItems_cons_nondict k0 v0 rest (fun d hd0 => hd ⟨d, hd0⟩)] at h
      cases hrest : validateItems rest with
      | ok r =>
        rw [hrest] at h
        simp only [Except.map] at h
        cases h
        rw [ih hrest]
      | error errs =>
        rw [hrest] at h
        simp [Except.map] at h

theorem validateItems_ok_self_iff (data : Dict) :
    validateItems data = .ok data ↔
      ∀ k d, (k, PyVal.pdict d) ∈ data → entryErrors k d = [] := by
  induction data with
  | nil => simp [validateItems]
  | cons kv rest ih =>
    obtain ⟨k0, v0⟩ := kv
    by_cases hd : ∃ d0, v0 = PyVal.pdict d0
    · obtain ⟨d0, rfl⟩ := hd
      cases h0 : entryErrors k0 d0 with
      | nil =>
        rw [validateItems_cons_dict_ok k0 d0 rest h0]
        constructor
        · intro h k d hmem
          rcases List.mem_cons.mp hmem with hh | hh
          · cases hh
            exact h0
          · cases hrest : validateItems rest with
            | ok r =>
              have := validateItems_ok_eq hrest
              subst this
              rw [hrest] at h
              exact (ih.mp hrest) k d hh
            | error errs =>
              rw [hrest] at h
              simp [Except.map] at h
        · intro hall
          have hrest : validateItems rest = .ok rest :=
            ih.mpr (fun k d hmem => hall k d (List.mem_cons_of_mem _ hmem))
          rw [hrest]
          rfl
      | cons e es =>
        rw [validateItems_cons_dict_err k0 d0 rest e es h0]
        constructor
        · intro h
          cases h
        · intro hall
          have := hall k0 d0 (List.mem_cons_self _ _)
          rw [h0] at this
          cases this
    · rw [validateItems_cons_nondict k0 v0 rest (fun d hd0 => hd ⟨d, hd0⟩)]
      constructor
      · intro h k d hmem
        rcases List.mem_cons.mp hmem with hh | hh
        · exact absurd (congrArg (fun p : String × PyVal => p.2) hh).symm
            (fun hc => hd ⟨d, hc⟩)
        · cases hrest : validateItems rest with
          | ok r =>
            have := validateItems_ok_eq hrest
            subst this
            exact (ih.mp hrest) k d hh
          | error errs =>
            rw [hrest] at h
            simp [Except.map] at h
      · intro hall
        have hrest : validateItems rest = .ok rest :=
          ih.mpr (fun k d hmem => hall k d (List.mem_cons_of_mem _ hmem))
        rw [hrest]
        rfl

theorem validateItems_first_invalid :
    ∀ (pre : Dict) (k : String) (d : Dict) (post : Dict),
      (∀ j e, (j, PyVal.pdict e) ∈ pre → entryErrors j e = []) →
      entryErrors k d ≠ [] →
      validateItems (pre ++ (k, PyVal.pdict d) :: post) = .error (entryErrors k d) := by
  intro pre
  induction pre with
  | nil =>
    intro k d post _ hne
    cases h0 : entryErrors k d with
    | nil => exact absurd h0 hne
    | cons e es =>
      rw [List.nil_append, validateItems_cons_dict_err k d post e es h0]
  | cons kv rest ih =>
    intro k d post hpre hne
    obtain ⟨j0, v0⟩ := kv
    by_cases hd : ∃ e0, v0 = PyVal.pdict e0
    · obtain ⟨e0, rfl⟩ := hd
      have h0 : entryErrors j0 e0 = [] := hpre j0 e0 (List.mem_cons_self _ _)
      rw [List.cons_append, validateItems_cons_dict_ok j0 e0 _ h0,
        ih k d post (fun j e hmem => hpre j e (List.mem_cons_of_mem _ hmem)) hne]
      rfl
    · rw [List.cons_append, validateItems_cons_nondict j0 v0 _ (fun e he => hd ⟨e, he⟩),
        ih k d post (fun j e hmem => hpre j e (List.mem_cons_of_mem _ hmem)) hne]
      rfl

/-- C3 counterexample: a registry mapping with two invalid dict-shaped
entries.  Validation raises on the first entry "A" (its errors alone become
the result); the second entry "b" is also invalid but is never examined and
contributes no error, refuting "one invalid entry does not halt validation of
the remaining entries". -/
theorem c3_first_error_halts_counterexample :
    validateItems [("A", PyVal.pdict []), ("b", PyVal.pdict [])] =
        .error (entryErrors "A" []) ∧
      entryErrors "b" [] ≠ [] := by
  refine ⟨rfl, ?_⟩
  decide

/-- C3 amended: registry-level validation iterates the mapping in order,
validating each dict-shaped value with the key injected as id and passing
non-dict values through unexamined; it succeeds (returning the mapping
unchanged) exactly when every dict-shaped entry is valid, but it stops at the
FIRST invalid dict-shaped entry, whose errors alone are reported — it does
not continue over the remaining entries. -/
theorem c3_registry_validation_amended (data : Dict) :
    (validateItems data = .ok data ↔
      ∀ k d, (k, PyVal.pdict d) ∈ data → entryErrors k d = []) ∧
    (∀ pre k d post, data = pre ++ (k, PyVal.pdict d) :: post →
      (∀ j e, (j, PyVal.pdict e) ∈ pre → entryErrors j e = []) →
      entryErrors k d ≠ [] →
      validateItems data = .error (entryErrors k d)) := by
  refine ⟨validateItems_ok_self_iff data, ?_⟩
  intro pre k d post hdata hpre hne
  rw [hdata]
  exact validateItems_first_invalid pre k d post hpre hne

/-- Witness for c3_registry_validation_amended: a mapping whose second entry
is the first invalid one. -/
theorem c3_registry_validation_amended_witness :
    validateItems [("x", PyVal.pstr "s"), ("bad", PyVal.pdict [])] =
      .error (entryErrors "bad" []) :=
  (c3_registry_validation_amended [("x", PyVal.pstr "s"), ("bad", PyVal.pdict [])]).2
    [("x", PyVal.pstr "s")] "bad" [] [] rfl
    (by intro j e hmem; simp at hmem) (by decide)

/-- C9: registry-level validation never mutates the entry values — the id
injection happens on a copy used only for checking, so whenever validation
succeeds the resulting mapping is the input mapping itself, value for value
(in particular no id field has been added to any stored entry). -/
theorem c9_validation_preserves_entries (data out : Dict)
    (h : validateItems data = .ok out) :
    out = data ∧ ∀ k, dictGet out k = dictGet data k := by
  have he := validateItems_ok_eq h
  exact ⟨he, fun k => by rw [he]⟩

/-- Witness for c9_validation_preserves_entries on a concrete mapping with a
valid dict entry and an opaque non-dict entry. -/
theorem c9_validation_preserves_entries_witness :
    ([("good", PyVal.pdict [("name", PyVal.pstr "n"), ("version", PyVal.pstr "1"),
        ("plugin_ver", PyVal.pint 1), ("author", PyVal.pstr "a"),
        ("url", PyVal.pstr "https://github.com/o/r"), ("branch", PyVal.pstr "main"),
        ("tag", PyVal.pstr "t")]), ("legacy", PyVal.pstr "opaque")] : Dict) =
      [("good", PyVal.pdict [("name", PyVal.pstr "n"), ("version", PyVal.pstr "1"),
        ("plugin_ver", PyVal.pint 1), ("author", PyVal.pstr "a"),
        ("url", PyVal.pstr "https://github.com/o/r"), ("branch", PyVal.pstr "main"),
        ("tag", PyVal.pstr "t")]), ("legacy", PyVal.pstr "opaque")] :=
  (c9_validation_preserves_entries _ _ (by rfl)).1

/- C1: merge precedence between submission (issue form) and fetched manifest. -/

/-- C1 counterexample: in the v1 pipeline the spread of the fetched manifest
comes last, so a manifest that declares its own url and branch overrides the
submission.  With a concrete submission pointing at o/r on branch dev and a
manifest declaring x/y and dev2, validation succeeds and the validated
registry entry carries the MANIFEST url and branch, refuting the claim that
they equal the submission's. -/
theorem c1_precedence_counterexample :
    (validateSubmissionMetadataV1 (mergedDataV1
        { url := "https://github.com/o/r", id := "a", tag := "t", branch := "dev" }
        [("name", PyVal.pstr "N"), ("version", PyVal.pstr "1"),
         ("plugin_ver", PyVal.pstr "1"), ("author", PyVal.pstr "A"),
         ("url", PyVal.pstr "https://github.com/x/y"), ("branch", PyVal.pstr "dev2")])).1
        = true ∧
      ((validateSubmissionMetadataV1 (mergedDataV1
        { url := "https://github.com/o/r", id := "a", tag := "t", branch := "dev" }
        [("name", PyVal.pstr "N"), ("version", PyVal.pstr "1"),
         ("plugin_ver", PyVal.pstr "1"), ("author", PyVal.pstr "A"),
         ("url", PyVal.pstr "https://github.com/x/y"), ("branch", PyVal.pstr "dev2")])).2.2.map
          (fun it => (it.url, it.branch)))
        = some ("https://github.com/x/y", "dev2") ∧
      ("https://github.com/x/y", "dev2") ≠ ("https://github.com/o/r", "dev") := by
  refine ⟨?_, ?_, ?_⟩
  · rfl
  · rfl
  · decide

/-- C1 amended: the two pipelines disagree.  In the CW2 pipeline the merged
record takes id, url, branch and the tag string from the submission and every
remaining field from the manifest (with defaults), as the claim states.  In
the v1 pipeline the manifest value wins for EVERY key it declares — id, tag
and url included — the submission value is used only when the manifest omits
the key, and the branch is the manifest's branch (default "main"), never the
submission's. -/
theorem c1_precedence_amended (form : FormData) (m : Dict)
    (hm : (m.map Prod.fst).Nodup) :
    (dictGet (mergedDataV1 form m) "id" =
        some ((dictGet m "id").getD (PyVal.pstr form.id)) ∧
      dictGet (mergedDataV1 form m) "tag" =
        some ((dictGet m "tag").getD (PyVal.pstr form.tag)) ∧
      dictGet (mergedDataV1 form m) "url" =
        some ((dictGet m "url").getD (PyVal.pstr form.url)) ∧
      dictGet (mergedDataV1 form m) "branch" =
        some ((dictGet m "branch").getD (PyVal.pstr "main"))) ∧
    (dictGet (mergedDataCW2 form m) "id" = some (PyVal.pstr form.id) ∧
      dictGet (mergedDataCW2 form m) "url" = some (PyVal.pstr form.url) ∧
      dictGet (mergedDataCW2 form m) "branch" = some (PyVal.pstr form.branch) ∧
      dictGet (mergedDataCW2 form m) "tags" = some (PyVal.pstr form.tag) ∧
      dictGet (mergedDataCW2 form m) "name" = some (dictGetD m "name" (PyVal.pstr "")) ∧
      dictGet (mergedDataCW2 form m) "version" = some (dictGetD m "version" (PyVal.pstr "")) ∧
      dictGet (mergedDataCW2 form m) "api_version" =
        some (dictGetD m "api_version" (PyVal.pstr "")) ∧
      dictGet (mergedDataCW2 form m) "description" =
        some (dictGetD m "description" (PyVal.pstr "")) ∧
      dictGet (mergedDataCW2 form m) "author" = some (dictGetD m "author" (PyVal.pstr "")) ∧
      dictGet (mergedDataCW2 form m) "readme" =
        some (dictGetD m "readme" (PyVal.pstr "README.md")) ∧
      dictGet (mergedDataCW2 form m) "icon" = some (dictGetD m "icon" PyVal.pnone)) := by
  constructor
  · have hfold := fun k => dictGet_foldl_dictSet m
      [("id", PyVal.pstr form.id), ("tag", PyVal.pstr form.tag),
       ("url", PyVal.pstr form.url), ("branch", dictGetD m "branch" (PyVal.pstr "main"))]
      k hm
    refine ⟨?_, ?_, ?_, ?_⟩ <;>
      · rw [mergedDataV1, hfold]
        cases hk : dictGet m _ <;> simp [hk, Option.or, dictGet, dictGetD]
  · refine ⟨?_, ?_, ?_, ?_, ?_, ?_, ?_, ?_, ?_, ?_, ?_⟩ <;> rfl

/-- Witness for c1_precedence_amended at a concrete submission and manifest
with distinct keys. -/
theorem c1_precedence_amended_witness :
    dictGet (mergedDataV1
        { url := "https://github.com/o/r", id := "a", tag := "t", branch := "dev" }
        [("url", PyVal.pstr "https://github.com/x/y")]) "url" =
      some ((dictGet [("url", PyVal.pstr "https://github.com/x/y")] "url").getD
        (PyVal.pstr "https://github.com/o/r")) :=
  ((c1_precedence_amended
      { url := "https://github.com/o/r", id := "a", tag := "t", branch := "dev" }
      [("url", PyVal.pstr "https://github.com/x/y")] (by simp)).1).2.2.1

/- Lemmas about the GitHub URL pattern matcher. -/

theorem takeWhile_append_cons (p : Char → Bool) (l : List Char) (c : Char)
    (r : List Char) (hl : ∀ x ∈ l, p x = true) (hc : p c = false) :
    (l ++ c :: r).takeWhile p = l ∧ (l ++ c :: r).dropWhile p = c :: r := by
  induction l with
  | nil => simp [List.takeWhile_cons, List.dropWhile_cons, hc]
  | cons a l ih =>
    have ha : p a = true := hl a (List.mem_cons_self _ _)
    have ihr := ih (fun x hx => hl x (List.mem_cons_of_mem _ hx))
    simp [List.takeWhile_cons, List.dropWhile_cons, ha, ihr.1, ihr.2]

theorem restMatch_iff (rest : List Char) :
    restMatch rest = true ↔
      ∃ ow re t, ow ≠ [] ∧ re ≠ [] ∧ (∀ c ∈ ow, isUrlSeg c = true) ∧
        (∀ c ∈ re, isUrlSeg c = true) ∧ (t = [] ∨ t = ['/']) ∧
        rest = ow ++ '/' :: (re ++ t) := by
  constructor
  · intro h
    unfold restMatch at h
    cases h2 : rest.dropWhile isUrlSeg with
    | nil => rw [h2] at h; simp at h
    | cons b d2 =>
      rw [h2] at h
      simp only [Bool.and_eq_true, Bool.not_eq_true', List.isEmpty_eq_false,
        decide_eq_true_eq, Bool.or_eq_true, List.isEmpty_iff] at h
      obtain ⟨h1, ⟨hb, hseg2⟩, ht⟩ := h
      subst hb
      refine ⟨rest.takeWhile isUrlSeg, d2.takeWhile isUrlSeg, d2.dropWhile isUrlSeg,
        h1, hseg2, fun c hc => List.mem_takeWhile_imp hc,
        fun c hc => List.mem_takeWhile_imp hc, ht, ?_⟩
      conv_lhs => rw [← List.takeWhile_append_dropWhile isUrlSeg rest]
      rw [h2]
      conv_lhs => rw [← List.takeWhile_append_dropWhile isUrlSeg d2]
  · rintro ⟨ow, re, t, how, hre, hallo, hallr, ht, rfl⟩
    have hslash : isUrlSeg '/' = false := by decide
    have houter := takeWhile_append_cons isUrlSeg ow '/' (re ++ t) hallo hslash
    unfold restMatch
    rw [houter.1, houter.2]
    have hinner : (re ++ t).takeWhile isUrlSeg = re ∧
        (re ++ t).dropWhile isUrlSeg = t := by
      rcases ht with rfl | rfl
      · rw [List.append_nil]
        exact ⟨List.takeWhile_eq_self_iff.mpr hallr, List.dropWhile_eq_nil_iff.mpr hallr⟩
      · exact takeWhile_append_cons isUrlSeg re '/' [] hallr hslash
    simp only [hinner.1, hinner.2]
    rcases ht with rfl | rfl <;>
      simp [how, hre, List.isEmpty_iff]

theorem ghLit_length : ghLit.length = 19 := by decide

theorem githubUrlChars_iff (cs : List Char) :
    githubUrlChars cs = true ↔ GitHubUrlForm cs := by
  unfold githubUrlChars GitHubUrlForm
  by_cases hp : ghLit.isPrefixOf cs
  · obtain ⟨rest, hrest⟩ := List.isPrefixOf_iff_prefix.mp hp
    subst hrest
    rw [if_pos hp, ← ghLit_length, List.drop_left, restMatch_iff]
    constructor
    · rintro ⟨ow, re, t, h1, h2, h3, h4, h5, h6⟩
      exact ⟨ow, re, t, h1, h2, h3, h4, h5, by rw [h6]⟩
    · rintro ⟨ow, re, t, h1, h2, h3, h4, h5, h6⟩
      exact ⟨ow, re, t, h1, h2, h3, h4, h5, List.append_cancel_left h6⟩
  · rw [if_neg hp]
    constructor
    · intro h
      cases h
    · rintro ⟨ow, re, t, _, _, _, _, _, rfl⟩
      exact absurd (List.isPrefixOf_iff_prefix.mpr ⟨ow ++ '/' :: (re ++ t), rfl⟩) hp

/-- C4 counterexample: the submission models' url validator (validate_url)
accepts "http://example.com", a string that is not of the GitHub repository
form and fails the GitHub pattern — so the GitHub-URL validation does NOT
apply to the submission models' url field, refuting the claim that for every
non-GitHub-form string URL validation fails on submission models too. -/
theorem c4_url_validation_counterexample :
    httpOk "http://example.com" = true ∧
      githubUrlMatch "http://example.com" = false ∧
      ¬GitHubUrlForm "http://example.com".toList := by
  refine ⟨by rfl, by rfl, fun hform => ?_⟩
  have h := (githubUrlChars_iff "http://example.com".toList).mpr hform
  exact absurd h (by decide)

/-- C4 amended: the GitHub pattern check (as applied by the Field pattern of
the manifest and registry models PluginJson, RegistryItem, CW2PluginJson and
CW2ManifestItem) succeeds exactly on strings of the form https github.com
owner slash repo with an optional trailing slash, and fails on every other
string; the submission models' url field instead carries only the weaker
validate_url prefix check, which every GitHub-form URL also passes. -/
theorem c4_url_validation_amended (s : String) :
    (githubUrlMatch s = true ↔ GitHubUrlForm s.toList) ∧
      (githubUrlMatch s = true → httpOk s = true) := by
  refine ⟨githubUrlChars_iff s.toList, fun h => ?_⟩
  obtain ⟨ow, re, t, _, _, _, _, _, heq⟩ := (githubUrlChars_iff s.toList).mp h
  simp only [httpOk, Bool.or_eq_true]
  right
  rw [List.isPrefixOf_iff_prefix, heq]
  have hsplit : ghLit = "https://".toList ++ "github.com/".toList := by decide
  rw [hsplit, List.append_assoc]
  exact List.prefix_append _ _

/-- Witness for c4_url_validation_amended at a concrete GitHub URL. -/
theorem c4_url_validation_amended_witness :
    githubUrlMatch "https://github.com/acme/widget" = true ∧
      httpOk "https://github.com/acme/widget" = true :=
  ⟨(c4_url_validation_amended "https://github.com/acme/widget").1.mpr
      ⟨"acme".toList, "widget".toList, [], by decide, by decide, by decide, by decide,
        Or.inl rfl, by decide⟩,
    (c4_url_validation_amended "https://github.com/acme/widget").2 (by rfl)⟩

/- Lemmas about the plugin-id pattern matcher. -/

theorem isIdChar_isIdMidChar {c : Char} (h : isIdChar c = true) :
    isIdMidChar c = true := by
  simp [isIdMidChar, h]

theorem isIdMidChar_not_upper {c : Char} (h : isIdMidChar c = true) :
    isUpperChar c = false := by
  apply Bool.eq_false_iff.mpr
  intro hup
  simp only [isUpperChar, Bool.and_eq_true, decide_eq_true_eq] at hup
  simp only [isIdMidChar, isIdChar, Bool.or_eq_true, Bool.and_eq_true,
    decide_eq_true_eq] at h
  rcases h with ((⟨h1, h2⟩ | ⟨h1, h2⟩) | hc) | hc
  · omega
  · omega
  · subst hc
    exact absurd hup (by decide)
  · subst hc
    exact absurd hup (by decide)

theorem midLast_cons_cons (a b : Char) (rest : List Char) :
    midLast (a :: b :: rest) = (isIdMidChar a && midLast (b :: rest)) := rfl

theorem midLast_append (mid : List Char) (l : Char)
    (hmid : ∀ c ∈ mid, isIdMidChar c = true) (hl : isIdChar l = true) :
    midLast (mid ++ [l]) = true := by
  induction mid with
  | nil => simpa [midLast] using hl
  | cons c mid ih =>
    have hc : isIdMidChar c = true := hmid c (List.mem_cons_self _ _)
    have ihr := ih (fun x hx => hmid x (List.mem_cons_of_mem _ hx))
    cases mid with
    | nil => simp [midLast, hc, hl]
    | cons d mid2 => simpa [midLast, hc] using ihr

theorem midLast_mem {cs : List Char} (h : midLast cs = true) :
    ∀ c ∈ cs, isIdMidChar c = true := by
  induction cs with
  | nil => intro c hc; cases hc
  | cons a rest ih =>
    intro c hc
    cases rest with
    | nil =>
      rw [List.mem_singleton] at hc
      subst hc
      exact isIdChar_isIdMidChar (by simpa [midLast] using h)
    | cons b rest2 =>
      rw [midLast_cons_cons, Bool.and_eq_true] at h
      rcases List.mem_cons.mp hc with rfl | hc2
      · exact h.1
      · exact ih h.2 c hc2

theorem midLast_getLast {cs : List Char} (h : midLast cs = true) :
    ∃ c, cs.getLast? = some c ∧ isIdChar c = true := by
  induction cs with
  | nil => cases h
  | cons a rest ih =>
    cases rest with
    | nil => exact ⟨a, rfl, by simpa [midLast] using h⟩
    | cons b rest2 =>
      rw [midLast_cons_cons, Bool.and_eq_true] at h
      obtain ⟨c, hc1, hc2⟩ := ih h.2
      exact ⟨c, by rw [List.getLast?_cons_cons]; exact hc1, hc2⟩

theorem pluginIdCore_mem {cs : List Char} (h : pluginIdCore cs = true) :
    ∀ c ∈ cs, isIdMidChar c = true := by
  cases cs with
  | nil => cases h
  | cons a rest =>
    rw [pluginIdCore, Bool.and_eq_true] at h
    intro c hc
    rcases List.mem_cons.mp hc with rfl | hc2
    · exact isIdChar_isIdMidChar h.1
    · exact midLast_mem h.2 c hc2

theorem pluginIdCore_getLast {cs : List Char} (h : pluginIdCore cs = true) :
    ∃ c, cs.getLast? = some c ∧ isIdChar c = true := by
  cases cs with
  | nil => cases h
  | cons a rest =>
    rw [pluginIdCore, Bool.and_eq_true] at h
    cases rest with
    | nil => cases h.2
    | cons b rest2 =>
      obtain ⟨c, hc1, hc2⟩ := midLast_getLast h.2
      exact ⟨c, by rw [List.getLast?_cons_cons]; exact hc1, hc2⟩

theorem pluginIdCore_head_bad (c : Char) (rest : List Char)
    (hc : isIdChar c = false) : pluginIdCore (c :: rest) = false := by
  simp [pluginIdCore, hc]

theorem mem_dropLast_or_last {c lc : Char} :
    ∀ {cs : List Char}, c ∈ cs → cs.getLast? = some lc →
      c ∈ cs.dropLast ∨ c = lc := by
  intro cs
  induction cs with
  | nil => intro hc _; cases hc
  | cons a rest ih =>
    intro hc hl
    cases rest with
    | nil =>
      rw [List.mem_singleton] at hc
      subst hc
      right
      simpa using hl
    | cons b rest2 =>
      rw [List.getLast?_cons_cons] at hl
      rcases List.mem_cons.mp hc with rfl | hc2
      · left
        rw [List.dropLast_cons₂]
        exact List.mem_cons_self _ _
      · rcases ih hc2 hl with hin | heq
        · left
          rw [List.dropLast_cons₂]
          exact List.mem_cons_of_mem _ hin
        · right
          exact heq

/-- C5: every string matching the identifier pattern (first char in a-z0-9,
middle chars in a-z0-9.-, last char in a-z0-9) passes the validate_plugin_id
check, and every string that starts or ends with a dot or hyphen, or contains
an ASCII uppercase letter, fails it. -/
theorem pyMatchPluginId_eq (s : String) :
    pyMatchPluginId s =
      (pluginIdCore s.toList ||
        match s.toList.getLast? with
        | some c => decide (c = '\n') && pluginIdCore s.toList.dropLast
        | none => false) := rfl

theorem c5_identifier_validation (s : String) :
    (PluginIdForm s.toList → validatePluginId s = true) ∧
      ((s.toList.head? = some '.' ∨ s.toList.head? = some '-' ∨
        s.toList.getLast? = some '.' ∨ s.toList.getLast? = some '-' ∨
        ∃ c ∈ s.toList, isUpperChar c = true) → validatePluginId s = false) := by
  constructor
  · rintro ⟨f, mid, l, hf, hmid, hl, heq⟩
    have hcore : pluginIdCore s.toList = true := by
      rw [heq, pluginIdCore, Bool.and_eq_true]
      exact ⟨hf, midLast_append mid l hmid hl⟩
    unfold validatePluginId
    rw [pyMatchPluginId_eq, Bool.or_eq_true]
    exact Or.inl hcore
  · intro hbad
    have hcorefalse : pluginIdCore s.toList = false := by
      apply Bool.eq_false_iff.mpr
      intro hcore
      rcases hbad with h | h | h | h | ⟨c, hcmem, hcup⟩
      · cases hcs : s.toList with
        | nil => rw [hcs] at h; cases h
        | cons a rest =>
          rw [hcs] at h hcore
          rw [List.head?_cons] at h
          injection h with ha
          subst ha
          rw [pluginIdCore, Bool.and_eq_true] at hcore
          exact absurd hcore.1 (by decide)
      · cases hcs : s.toList with
        | nil => rw [hcs] at h; cases h
        | cons a rest =>
          rw [hcs] at h hcore
          rw [List.head?_cons] at h
          injection h with ha
          subst ha
          rw [pluginIdCore, Bool.and_eq_true] at hcore
          exact absurd hcore.1 (by decide)
      · obtain ⟨c, hc1, hc2⟩ := pluginIdCore_getLast hcore
        rw [h] at hc1
        injection hc1 with hc1
        rw [← hc1] at hc2
        exact absurd hc2 (by decide)
      · obtain ⟨c, hc1, hc2⟩ := pluginIdCore_getLast hcore
        rw [h] at hc1
        injection hc1 with hc1
        rw [← hc1] at hc2
        exact absurd hc2 (by decide)
      · have hmid := pluginIdCore_mem hcore c hcmem
        rw [isIdMidChar_not_upper hmid] at hcup
        cases hcup
    have hbranch :
        (match s.toList.getLast? with
         | some c => decide (c = '\n') && pluginIdCore s.toList.dropLast
         | none => false) = false := by
      cases hlast : s.toList.getLast? with
      | none => rfl
      | some lc =>
        by_cases hlc : lc = '\n'
        · subst hlc
          have hdrop : pluginIdCore s.toList.dropLast = false := by
            apply Bool.eq_false_iff.mpr
            intro hcore
            rcases hbad with h | h | h | h | ⟨c, hcmem, hcup⟩
            · cases hcs : s.toList with
              | nil => rw [hcs] at h; cases h
              | cons a rest =>
                rw [hcs] at h hcore
                rw [List.head?_cons] at h
                injection h with ha
                subst ha
                cases rest with
                | nil => rw [List.dropLast_single] at hcore; cases hcore
                | cons b r2 =>
                  rw [List.dropLast_cons₂, pluginIdCore, Bool.and_eq_true] at hcore
                  exact absurd hcore.1 (by decide)
            · cases hcs : s.toList with
              | nil => rw [hcs] at h; cases h
              | cons a rest =>
                rw [hcs] at h hcore
                rw [List.head?_cons] at h
                injection h with ha
                subst ha
                cases rest with
                | nil => rw [List.dropLast_single] at hcore; cases hcore
                | cons b r2 =>
                  rw [List.dropLast_cons₂, pluginIdCore, Bool.and_eq_true] at hcore
                  exact absurd hcore.1 (by decide)
            · rw [h] at hlast
              injection hlast with hlast
              exact absurd hlast (by decide)
            · rw [h] at hlast
              injection hlast with hlast
              exact absurd hlast (by decide)
            · rcases mem_dropLast_or_last hcmem hlast with hin | rfl
              · have hmid := pluginIdCore_mem hcore c hin
                rw [isIdMidChar_not_upper hmid] at hcup
                cases hcup
              · exact absurd hcup (by decide)
          simp only [hdrop, Bool.and_false]
        · simp [hlc]
    unfold validatePluginId
    rw [pyMatchPluginId_eq, hcorefalse, hbranch]
    rfl

/-- Witness for c5_identifier_validation: acme.widget passes (it has the
pattern shape) and Acme fails (it contains an uppercase letter). -/
theorem c5_identifier_validation_witness :
    validatePluginId "acme.widget" = true ∧ validatePluginId "Acme" = false :=
  ⟨(c5_identifier_validation "acme.widget").1
      ⟨'a', "cme.widge".toList, 't', by decide, by decide, by decide, by decide⟩,
    (c5_identifier_validation "Acme").2
      (Or.inr (Or.inr (Or.inr (Or.inr ⟨'A', by decide, by decide⟩))))⟩

/-- C10: the v1 pipeline enforces no identifier pattern — for every id string
(uppercase, dot or hyphen edges, single characters included) v1 submission
validation succeeds exactly when the url and branch constraints hold,
independently of the id — while the CW2 pipeline additionally enforces the
slug pattern on the id. -/
theorem c10_v1_no_id_constraint
    (idv nm ver pv au url br tg ds : String) :
    (validateSubmissionMetadataV1
        [("id", PyVal.pstr idv), ("name", PyVal.pstr nm), ("version", PyVal.pstr ver),
         ("plugin_ver", PyVal.pstr pv), ("author", PyVal.pstr au),
         ("url", PyVal.pstr url), ("branch", PyVal.pstr br), ("tag", PyVal.pstr tg),
         ("description", PyVal.pstr ds)]).1 =
      (httpOk url && githubUrlMatch url && branchMatch br) ∧
    (validateSubmissionMetadataCW2
        [("id", PyVal.pstr idv), ("name", PyVal.pstr nm), ("version", PyVal.pstr ver),
         ("api_version", PyVal.pstr pv), ("description", PyVal.pstr ds),
         ("author", PyVal.pstr au), ("url", PyVal.pstr url), ("branch", PyVal.pstr br),
         ("tags", PyVal.pstr tg)]).1 =
      (validatePluginId idv && httpOk url && githubUrlMatch url && branchMatch br) := by
  constructor
  · by_cases hu : httpOk url <;> by_cases hg : githubUrlMatch url <;>
      by_cases hb : branchMatch br <;>
      simp [validateSubmissionMetadataV1, subErrorsV1, reqStrField, intOrStrField,
        optStrField, urlFieldV1, buildSubV1, itemErrorsV1, getStr, getOptStr, dictGet,
        fmtErrs, hu, hg, hb]
  · by_cases hi : validatePluginId idv <;> by_cases hu : httpOk url <;>
      by_cases hg : githubUrlMatch url <;> by_cases hb : branchMatch br <;>
      simp [validateSubmissionMetadataCW2, subErrorsCW2, subErrorsCW2.optReadmeField,
        reqStrField, idField, optStrField, urlFieldV1, buildSubCW2, itemErrorsCW2,
        getStr, getOptStr, dictGet, fmtErrs, splitTags, hi, hu, hg, hb]

/-- C8: on the example issue body (URL, id and tag sections present, no
branch section) form extraction yields branch "main" by default, and with the
example manifest the validated registry entry has id acme.widget, branch
main, and tags the comma-split list of the tag string. -/
theorem c8_example_end_to_end :
    extractFormDataFromIssue
        "### 插件仓库 URL\nhttps://github.com/acme/widget\n\n### 插件 ID\nacme.widget\n\n### 插件标签\nui,fun" =
      some { url := "https://github.com/acme/widget", id := "acme.widget",
             tag := "ui,fun", branch := "main" } ∧
      ((validateSubmissionMetadataCW2 (mergedDataCW2
          { url := "https://github.com/acme/widget", id := "acme.widget",
            tag := "ui,fun", branch := "main" }
          [("name", PyVal.pstr "Widget"), ("version", PyVal.pstr "1.0.0"),
           ("api_version", PyVal.pstr "1.0"), ("description", PyVal.pstr "d"),
           ("author", PyVal.pstr "Acme")])).2.2.map
        (fun it => (it.id, it.branch, it.tags))) =
        some ("acme.widget", "main", some ["ui", "fun"]) := by
  exact ⟨by rfl, by rfl⟩

/- Lemmas about per-field validation error paths and counts. -/

theorem reqStrField_paths (d : Dict) (f : String) :
    ∀ e ∈ reqStrField d f, e.1 = f := by
  intro e he
  unfold reqStrField at he
  cases hg : dictGet d f with
  | none =>
    rw [hg] at he
    simp at he
    subst he
    rfl
  | some v =>
    rw [hg] at he
    cases v <;> simp at he <;> (subst he; rfl)

theorem intOrStrField_paths (d : Dict) (f : String) :
    ∀ e ∈ intOrStrField d f, e.1 = f ∨ e.1 = f ++ ".int" ∨ e.1 = f ++ ".str" := by
  intro e he
  unfold intOrStrField at he
  cases hg : dictGet d f with
  | none =>
    rw [hg] at he
    simp at he
    subst he
    left
    rfl
  | some v =>
    rw [hg] at he
    cases v <;> simp at he <;> (rcases he with he | he <;> subst he <;> simp)

theorem optStrField_paths (d : Dict) (f : String) :
    ∀ e ∈ optStrField d f, e.1 = f := by
  intro e he
  unfold optStrField at he
  cases hg : dictGet d f with
  | none =>
    rw [hg] at he
    simp at he
  | some v =>
    rw [hg] at he
    cases v <;> simp at he <;> (subst he; rfl)

theorem urlFieldV1_paths (d : Dict) :
    ∀ e ∈ urlFieldV1 d, e.1 = "url" := by
  intro e he
  unfold urlFieldV1 at he
  cases hg : dictGet d "url" with
  | none =>
    rw [hg] at he
    simp at he
    subst he
    rfl
  | some v =>
    rw [hg] at he
    cases v <;> simp at he
    case pstr s =>
      by_cases hs : httpOk s <;> simp [hs] at he <;> try (subst he; rfl)
    all_goals (subst he; rfl)

theorem idField_paths (d : Dict) (f : String) :
    ∀ e ∈ idField d f, e.1 = f := by
  intro e he
  unfold idField at he
  cases hg : dictGet d f with
  | none =>
    rw [hg] at he
    simp at he
    subst he
    rfl
  | some v =>
    rw [hg] at he
    cases v <;> simp at he
    case pstr s =>
      by_cases hs : validatePluginId s <;> simp [hs] at he <;> try (subst he; rfl)
    all_goals (subst he; rfl)

theorem optReadmeField_paths (d : Dict) :
    ∀ e ∈ subErrorsCW2.optReadmeField d, e.1 = "readme" := by
  intro e he
  unfold subErrorsCW2.optReadmeField at he
  cases hg : dictGet d "readme" with
  | none =>
    rw [hg] at he
    simp at he
  | some v =>
    rw [hg] at he
    cases v <;> simp at he <;> (subst he; rfl)

theorem reqStrField_missing (d : Dict) (f : String) (h : dictGet d f = none) :
    reqStrField d f = [(f, "Field required")] := by
  simp [reqStrField, h]

theorem intOrStrField_missing (d : Dict) (f : String) (h : dictGet d f = none) :
    intOrStrField d f = [(f, "Field required")] := by
  simp [intOrStrField, h]

theorem urlFieldV1_missing (d : Dict) (h : dictGet d "url" = none) :
    urlFieldV1 d = [("url", "Field required")] := by
  simp [urlFieldV1, h]

theorem idField_missing (d : Dict) (f : String) (h : dictGet d f = none) :
    idField d f = [(f, "Field required")] := by
  simp [idField, h]

theorem errCountFor_append (f : String) (l1 l2 : List FieldErr) :
    errCountFor f (l1 ++ l2) = errCountFor f l1 + errCountFor f l2 :=
  List.countP_append _ l1 l2

theorem errCountFor_zero_of_paths {f : String} {errs : List FieldErr}
    (h : ∀ e ∈ errs, e.1 ≠ f) : errCountFor f errs = 0 :=
  List.countP_eq_zero.mpr (fun e he => by simp [h e he])

theorem errCountFor_single (f : String) (msg : String) :
    errCountFor f [(f, msg)] = 1 := by
  simp [errCountFor, List.countP_cons]

theorem errCountFor_reqStr_ne (d : Dict) {f g : String} (h : g ≠ f) :
    errCountFor g (reqStrField d f) = 0 :=
  errCountFor_zero_of_paths (fun e he => by rw [reqStrField_paths d f e he]; exact h.symm)

theorem errCountFor_intOrStr_ne (d : Dict) {f g : String} (h1 : g ≠ f)
    (h2 : g ≠ f ++ ".int") (h3 : g ≠ f ++ ".str") :
    errCountFor g (intOrStrField d f) = 0 :=
  errCountFor_zero_of_paths (fun e he => by
    rcases intOrStrField_paths d f e he with hp | hp | hp <;> rw [hp]
    · exact h1.symm
    · exact h2.symm
    · exact h3.symm)

theorem errCountFor_optStr_ne (d : Dict) {f g : String} (h : g ≠ f) :
    errCountFor g (optStrField d f) = 0 :=
  errCountFor_zero_of_paths (fun e he => by rw [optStrField_paths d f e he]; exact h.symm)

theorem errCountFor_urlV1_ne (d : Dict) {g : String} (h : g ≠ "url") :
    errCountFor g (urlFieldV1 d) = 0 :=
  errCountFor_zero_of_paths (fun e he => by rw [urlFieldV1_paths d e he]; exact h.symm)

theorem errCountFor_idField_ne (d : Dict) {f g : String} (h : g ≠ f) :
    errCountFor g (idField d f) = 0 :=
  errCountFor_zero_of_paths (fun e he => by rw [idField_paths d f e he]; exact h.symm)

theorem errCountFor_readme_ne (d : Dict) {g : String} (h : g ≠ "readme") :
    errCountFor g (subErrorsCW2.optReadmeField d) = 0 :=
  errCountFor_zero_of_paths (fun e he => by rw [optReadmeField_paths d e he]; exact h.symm)

theorem subErrorsV1_missing_count (d : Dict) (f : String)
    (hf : f ∈ v1RequiredFields) (h : dictGet d f = none) :
    errCountFor f (subErrorsV1 d) = 1 := by
  fin_cases hf <;>
    simp only [subErrorsV1, errCountFor_append] <;>
    rw [show (1 : Nat) = 1 from rfl] <;>
    first
    | (rw [reqStrField_missing d _ h] <;>
        simp [errCountFor_single, errCountFor_reqStr_ne, errCountFor_intOrStr_ne,
          errCountFor_optStr_ne, errCountFor_urlV1_ne])
    | (rw [intOrStrField_missing d _ h] <;>
        simp [errCountFor_single, errCountFor_reqStr_ne, errCountFor_intOrStr_ne,
          errCountFor_optStr_ne, errCountFor_urlV1_ne])
    | (rw [urlFieldV1_missing d h] <;>
        simp [errCountFor_single, errCountFor_reqStr_ne, errCountFor_intOrStr_ne,
          errCountFor_optStr_ne, errCountFor_urlV1_ne])

theorem subErrorsCW2_missing_count (d : Dict) (f : String)
    (hf : f ∈ cw2RequiredFields) (h : dictGet d f = none) :
    errCountFor f (subErrorsCW2 d) = 1 := by
  fin_cases hf <;>
    simp only [subErrorsCW2, errCountFor_append] <;>
    first
    | (rw [idField_missing d _ h] <;>
        simp [errCountFor_single, errCountFor_reqStr_ne, errCountFor_idField_ne,
          errCountFor_optStr_ne, errCountFor_urlV1_ne, errCountFor_readme_ne])
    | (rw [reqStrField_missing d _ h] <;>
        simp [errCountFor_single, errCountFor_reqStr_ne, errCountFor_idField_ne,
          errCountFor_optStr_ne, errCountFor_urlV1_ne, errCountFor_readme_ne])
    | (rw [urlFieldV1_missing d h] <;>
        simp [errCountFor_single, errCountFor_reqStr_ne, errCountFor_idField_ne,
          errCountFor_optStr_ne, errCountFor_urlV1_ne, errCountFor_readme_ne])

theorem countP_disjoint_le_length (p q : FieldErr → Bool) (l : List FieldErr)
    (hpq : ∀ a, p a = true → q a = false) :
    l.countP p + l.countP q ≤ l.length := by
  induction l with
  | nil => simp
  | cons a l ih =>
    rw [List.countP_cons, List.countP_cons, List.length_cons]
    by_cases hp : p a = true
    · rw [hp, hpq a hp]
      simp
      omega
    · rw [Bool.eq_false_iff.mpr hp]
      by_cases hq : q a = true
      · rw [hq]
        simp
        omega
      · rw [Bool.eq_false_iff.mpr hq]
        simp
        omega

theorem two_le_length_of_two_counts {f g : String} {errs : List FieldErr}
    (hfg : f ≠ g) (hcf : errCountFor f errs = 1) (hcg : errCountFor g errs = 1) :
    2 ≤ errs.length := by
  have hd : ∀ a : FieldErr, (a.1 == f) = true → (a.1 == g) = false := by
    intro a ha
    rw [beq_iff_eq] at ha
    rw [beq_eq_false_iff_ne, ha]
    exact hfg
  have := countP_disjoint_le_length (fun e => e.1 == f) (fun e => e.1 == g) errs hd
  rw [show errs.countP (fun e => e.1 == f) = errCountFor f errs from rfl,
    show errs.countP (fun e => e.1 == g) = errCountFor g errs from rfl, hcf, hcg] at this
  exact this

/-- C6 counterexample: a submission violating two independent constraints —
the url prefix check (a Submission-stage validator) and the branch pattern (a
RegistryItem-stage constraint) — yields only ONE error entry, because the
entry-construction stage never runs when the submission stage fails; this
refutes "one per violated constraint ... all violations are surfaced". -/
theorem c6_error_surfacing_counterexample :
    (validateSubmissionMetadataV1
        [("id", PyVal.pstr "a"), ("name", PyVal.pstr "n"), ("version", PyVal.pstr "1"),
         ("plugin_ver", PyVal.pstr "1"), ("author", PyVal.pstr "au"),
         ("url", PyVal.pstr "ftp://x"), ("branch", PyVal.pstr "bad branch"),
         ("tag", PyVal.pstr "t"), ("description", PyVal.pstr "d")]).2.1 =
      ["url: Value error, URL必须以http://或https://开头"] ∧
      httpOk "ftp://x" = false ∧ branchMatch "bad branch" = false := by
  exact ⟨by rfl, by rfl, by rfl⟩

/-- C6 amended: on failure both pipelines return no entry and a non-empty
list of strings formatted from structured (path, message) errors; the errors
are those of the FAILING STAGE only — all submission-stage violations are
collected together (one per violated constraint, in field order), but
entry-construction violations are reported only when the submission stage
passes.  A missing required field yields exactly one error whose path is that
field, and two required fields missing together yield at least two errors. -/
theorem c6_error_reporting_amended (d : Dict) :
    ((validateSubmissionMetadataV1 d).1 = false ↔
        (validateSubmissionMetadataV1 d).2.1 ≠ []) ∧
      (subErrorsV1 d ≠ [] →
        (validateSubmissionMetadataV1 d).2.1 = fmtErrs (subErrorsV1 d)) ∧
      (subErrorsV1 d = [] →
        (validateSubmissionMetadataV1 d).2.1 = fmtErrs (itemErrorsV1 (buildSubV1 d))) ∧
      ((validateSubmissionMetadataV1 d).1 = false →
        (validateSubmissionMetadataV1 d).2.2 = none) ∧
      (∀ f ∈ v1RequiredFields, dictGet d f = none →
        errCountFor f (subErrorsV1 d) = 1) ∧
      (∀ f g, f ∈ v1RequiredFields → g ∈ v1RequiredFields → f ≠ g →
        dictGet d f = none → dictGet d g = none → 2 ≤ (subErrorsV1 d).length) ∧
      ((validateSubmissionMetadataCW2 d).1 = false ↔
        (validateSubmissionMetadataCW2 d).2.1 ≠ []) ∧
      (subErrorsCW2 d ≠ [] →
        (validateSubmissionMetadataCW2 d).2.1 = fmtErrs (subErrorsCW2 d)) ∧
      (subErrorsCW2 d = [] →
        (validateSubmissionMetadataCW2 d).2.1 = fmtErrs (itemErrorsCW2 (buildSubCW2 d))) ∧
      ((validateSubmissionMetadataCW2 d).1 = false →
        (validateSubmissionMetadataCW2 d).2.2 = none) ∧
      (∀ f ∈ cw2RequiredFields, dictGet d f = none →
        errCountFor f (subErrorsCW2 d) = 1) ∧
      (∀ f g, f ∈ cw2RequiredFields → g ∈ cw2RequiredFields → f ≠ g →
        dictGet d f = none → dictGet d g = none → 2 ≤ (subErrorsCW2 d).length) := by
  refine ⟨?_, ?_, ?_, ?_, fun f hf hm => subErrorsV1_missing_count d f hf hm,
    fun f g hf hg hfg h1 h2 => two_le_length_of_two_counts hfg
      (subErrorsV1_missing_count d f hf h1) (subErrorsV1_missing_count d g hg h2),
    ?_, ?_, ?_, ?_, fun f hf hm => subErrorsCW2_missing_count d f hf hm,
    fun f g hf hg hfg h1 h2 => two_le_length_of_two_counts hfg
      (subErrorsCW2_missing_count d f hf h1) (subErrorsCW2_missing_count d g hg h2)⟩
  · cases h1 : subErrorsV1 d with
    | nil =>
      cases h2 : itemErrorsV1 (buildSubV1 d) with
      | nil => simp [validateSubmissionMetadataV1, h1, h2, fmtErrs]
      | cons e es => simp [validateSubmissionMetadataV1, h1, h2, fmtErrs]
    | cons e es => simp [validateSubmissionMetadataV1, h1, fmtErrs]
  · cases h1 : subErrorsV1 d with
    | nil => simp
    | cons e es => simp [validateSubmissionMetadataV1, h1, fmtErrs]
  · cases h1 : subErrorsV1 d with
    | nil =>
      cases h2 : itemErrorsV1 (buildSubV1 d) with
      | nil => simp [validateSubmissionMetadataV1, h1, h2, fmtErrs]
      | cons e es => simp [validateSubmissionMetadataV1, h1, h2, fmtErrs]
    | cons e es => simp [h1]
  · cases h1 : subErrorsV1 d with
    | nil =>
      cases h2 : itemErrorsV1 (buildSubV1 d) with
      | nil => simp [validateSubmissionMetadataV1, h1, h2]
      | cons e es => simp [validateSubmissionMetadataV1, h1, h2]
    | cons e es => simp [validateSubmissionMetadataV1, h1]
  · cases h1 : subErrorsCW2 d with
    | nil =>
      cases h2 : itemErrorsCW2 (buildSubCW2 d) with
      | nil => simp [validateSubmissionMetadataCW2, h1, h2, fmtErrs]
      | cons e es => simp [validateSubmissionMetadataCW2, h1, h2, fmtErrs]
    | cons e es => simp [validateSubmissionMetadataCW2, h1, fmtErrs]
  · cases h1 : subErrorsCW2 d with
    | nil => simp
    | cons e es => simp [validateSubmissionMetadataCW2, h1, fmtErrs]
  · cases h1 : subErrorsCW2 d with
    | nil =>
      cases h2 : itemErrorsCW2 (buildSubCW2 d) with
      | nil => simp [validateSubmissionMetadataCW2, h1, h2, fmtErrs]
      | cons e es => simp [validateSubmissionMetadataCW2, h1, h2, fmtErrs]
    | cons e es => simp [h1]
  · cases h1 : subErrorsCW2 d with
    | nil =>
      cases h2 : itemErrorsCW2 (buildSubCW2 d) with
      | nil => simp [validateSubmissionMetadataCW2, h1, h2]
      | cons e es => simp [validateSubmissionMetadataCW2, h1, h2]
    | cons e es => simp [validateSubmissionMetadataCW2, h1]

/-- Witness for c6_error_reporting_amended on the empty input dict: the
missing required field id contributes exactly one error, and id and name
missing together give at least two errors. -/
theorem c6_error_reporting_amended_witness :
    errCountFor "id" (subErrorsV1 []) = 1 ∧ 2 ≤ (subErrorsV1 []).length :=
  ⟨(c6_error_reporting_amended []).2.2.2.2.1 "id" (by decide) rfl,
    (c6_error_reporting_amended []).2.2.2.2.2.1 "id" "name" (by decide) (by decide)
      (by decide) rfl rfl⟩

/- Lemmas about index generation. -/

theorem parsePluginManifest_missing (f : MFile) (data : Dict)
    (hc : f.content = .ok data)
    (hmiss : requiredFields.filter (fun fld => !hasKey data fld) ≠ []) :
    parsePluginManifest f =
      (none, [(f.path, "Missing required fields: " ++
        String.intercalate ", " (requiredFields.filter (fun fld => !hasKey data fld)))]) := by
  unfold parsePluginManifest
  rw [hc]
  dsimp only
  rw [if_neg (by simpa [List.isEmpty_iff] using hmiss)]

/-- C7: on the two-file directory of the spec example (one valid manifest
with id a, one manifest missing id and version) index generation reports one
plugin, one error naming the offending file and its missing fields, and the
surviving plugin has id a; in general a file whose object content lacks a
required field is excluded from the scanned plugin list, contributes exactly
its one error entry in scan order, and the remaining files before and after
it are still processed. -/
theorem c7_index_generation (now dir mt1 mt2 : String) (sz1 sz2 : Nat) :
    ((generateIndex now dir
        [{ path := "a.json",
           content := .ok [("id", PyVal.pstr "a"), ("name", PyVal.pstr "A"),
             ("version", PyVal.pstr "1.0")], size := sz1, mtime := mt1 },
         { path := "b.json", content := .ok [("name", PyVal.pstr "B")],
           size := sz2, mtime := mt2 }]).statistics.total_plugins = 1 ∧
      (generateIndex now dir
        [{ path := "a.json",
           content := .ok [("id", PyVal.pstr "a"), ("name", PyVal.pstr "A"),
             ("version", PyVal.pstr "1.0")], size := sz1, mtime := mt1 },
         { path := "b.json", content := .ok [("name", PyVal.pstr "B")],
           size := sz2, mtime := mt2 }]).statistics.total_errors = 1 ∧
      (generateIndex now dir
        [{ path := "a.json",
           content := .ok [("id", PyVal.pstr "a"), ("name", PyVal.pstr "A"),
             ("version", PyVal.pstr "1.0")], size := sz1, mtime := mt1 },
         { path := "b.json", content := .ok [("name", PyVal.pstr "B")],
           size := sz2, mtime := mt2 }]).errors =
        [("b.json", "Missing required fields: id, version")] ∧
      ((generateIndex now dir
        [{ path := "a.json",
           content := .ok [("id", PyVal.pstr "a"), ("name", PyVal.pstr "A"),
             ("version", PyVal.pstr "1.0")], size := sz1, mtime := mt1 },
         { path := "b.json", content := .ok [("name", PyVal.pstr "B")],
           size := sz2, mtime := mt2 }]).plugins.head?.map
          (fun p => dictGet p "id")) = some (some (PyVal.pstr "a"))) ∧
    (∀ (pre post : List MFile) (f : MFile) (data : Dict),
      f.content = .ok data →
      (∃ fld ∈ requiredFields, hasKey data fld = false) →
      pluginsRaw (pre ++ f :: post) = pluginsRaw pre ++ pluginsRaw post ∧
      errorsRaw (pre ++ f :: post) =
        errorsRaw pre ++ (f.path, "Missing required fields: " ++
          String.intercalate ", "
            (requiredFields.filter (fun fld => !hasKey data fld))) :: errorsRaw post) := by
  constructor
  · exact ⟨by rfl, by rfl, by rfl, by rfl⟩
  · intro pre post f data hc hmiss
    have hne : requiredFields.filter (fun fld => !hasKey data fld) ≠ [] := by
      obtain ⟨fld, hfld, hk⟩ := hmiss
      exact List.ne_nil_of_mem (List.mem_filter.mpr ⟨hfld, by simp [hk]⟩)
    have hparse := parsePluginManifest_missing f data hc hne
    constructor
    · rw [pluginsRaw, List.filterMap_append]
      rw [show pluginsRaw pre = List.filterMap (fun f => (parsePluginManifest f).1) pre
          from rfl]
      congr 1
      rw [List.filterMap_cons, hparse]
      rfl
    · rw [errorsRaw, List.map_append, List.flatten_append]
      rw [show errorsRaw pre = (pre.map (fun f => (parsePluginManifest f).2)).flatten
          from rfl]
      congr 1
      rw [List.map_cons, List.flatten_cons, hparse]
      rfl

/-- Witness for c7_index_generation: a single scanned file missing id and
version yields no plugin and exactly its own error entry. -/
theorem c7_index_generation_witness :
    pluginsRaw ([] ++ MFile.mk "b.json" (.ok [("name", PyVal.pstr "B")]) 20 "t" :: []) =
        pluginsRaw [] ++ pluginsRaw [] ∧
      errorsRaw ([] ++ MFile.mk "b.json" (.ok [("name", PyVal.pstr "B")]) 20 "t" :: []) =
        errorsRaw [] ++ ("b.json", "Missing required fields: " ++
          String.intercalate ", " (requiredFields.filter
            (fun fld => !hasKey [("name", PyVal.pstr "B")] fld))) :: errorsRaw [] :=
  (c7_index_generation "now" "dir" "m1" "m2" 0 0).2 [] []
    (MFile.mk "b.json" (.ok [("name", PyVal.pstr "B")]) 20 "t")
    [("name", PyVal.pstr "B")] rfl ⟨"id", by decide, rfl⟩
